import Mathlib

/-!
Verification development for the Kelmarsh/Penmanshiel import script
(`project_kelmarsh.py`).  The script discovers per-turbine CSV files,
extracts their header blocks, groups and concatenates the time-series
bodies per turbine, loads meter and reanalysis data, synthesises a
field-mapping metadata document and packages everything for analytics.

The embedding below models a CSV file by its parsed constituents: the
key/value header block that `get_scada_headers` reads (rows 3-6 of the
raw file, split on the delimiter `: `) and the tabular body located by
the fixed skip offsets (9 rows for SCADA files, 10 for the meter file).
Pandas dataframes become lists of rows, `pd.concat` becomes list
concatenation (raising on an empty input list, as pandas does), NaN
becomes `Option.none`, and floating-point aggregates become rationals.
-/

namespace Kelmarsh

/-- Helper used throughout: first-occurrence lookup of a key in an
association list, mirroring how a pandas column lookup selects the first
matching label. -/
def lookupPairs {α : Type} (k : String) : List (String × α) → Option α
  | [] => none
  | (k', v) :: rest => if k' = k then some v else lookupPairs k rest

/-- Helper modelling `pandas.Series.unique`: keep the first occurrence of
each value, in order of appearance.  The accumulator holds the values
already seen. -/
def uniqueFirstAux {α : Type} [DecidableEq α] (seen : List α) : List α → List α
  | [] => []
  | a :: as => if a ∈ seen then uniqueFirstAux seen as else a :: uniqueFirstAux (seen ++ [a]) as

/-- Distinct values of a list in order of first appearance
(`pandas.Series.unique`). -/
def uniqueFirst {α : Type} [DecidableEq α] (l : List α) : List α :=
  uniqueFirstAux [] l

/-- Helper modelling glob matching as used by `Path.rglob`: `*` matches any
(possibly empty) run of characters, every other pattern character matches
itself.  Structural recursion on the pattern; the `*` case tries every
suffix of the subject. -/
def globMatch : List Char → List Char → Bool
  | [], s => s.isEmpty
  | '*' :: ps, s => s.tails.any (fun t => globMatch ps t)
  | p :: ps, s =>
    match s with
    | [] => false
    | c :: cs => p == c && globMatch ps cs

/-- Glob matching on strings (pattern, then subject). -/
def globMatchStr (pat s : String) : Bool :=
  globMatch pat.data s.data

/-- Helper modelling `str.replace("# ", "")` on the header index: delete
every occurrence of the two-character sequence `# `, scanning left to
right. -/
def stripHashChars : List Char → List Char
  | [] => []
  | '#' :: ' ' :: rest => stripHashChars rest
  | c :: rest => c :: stripHashChars rest

/-- String form of `stripHashChars`; models
`scada_headers.index.str.replace("# ", "")`. -/
def stripHash (k : String) : String :=
  ⟨stripHashChars k.data⟩

/-- One body row of a CSV file: the `# Date and time` index entry together
with the remaining measurement cells as (column name, value) pairs.  The
fixed skip offsets used by `pd.read_csv` locate this block in the raw
file; the block itself is modelled directly. -/
structure BodyRow where
  time : String
  cells : List (String × String)
  deriving DecidableEq, Repr

/-- A CSV file on disk: its path, the key/value header block read by
`get_scada_headers` (`skiprows=2, nrows=4, delimiter=": "`), and the
tabular body read by `get_scada_df` / `get_meter_data`. -/
structure CsvFile where
  path : String
  header : List (String × String)
  body : List BodyRow
  deriving DecidableEq, Repr

/-- One row of the header table: the source file (the `File` column holds
its path and is used to re-read the file) and the header fields after the
`# ` prefix strip, aligned on the union of keys across all files, with
`none` for a key the file does not declare (pandas NaN). -/
structure HeaderRecord where
  file : CsvFile
  fields : List (String × Option String)
  deriving DecidableEq, Repr

/-- The dataframe returned by `get_scada_headers`: one record per input
file. -/
structure HeaderTable where
  records : List HeaderRecord
  deriving DecidableEq, Repr

/-- One row of the long-format SCADA (or curtailment, or meter) table:
timestamp index, selected measurement cells, and the turbine tag added by
`get_scada_df` (`none` for the meter table and before tagging). -/
structure ScadaRow where
  timestamp : String
  cells : List (String × String)
  turbine : Option String
  deriving DecidableEq, Repr

/-- Union of the raw header keys of a list of files in order of first
appearance, modelling the index alignment performed by
`pd.concat(..., axis=1)` (outer join, `sort=False`). -/
def insertNewKeys (acc : List String) : List String → List String
  | [] => acc
  | k :: ks => insertNewKeys (if k ∈ acc then acc else acc ++ [k]) ks

/-- Accumulating form of the key union across the header blocks. -/
def headerKeyUnionAux (acc : List String) : List CsvFile → List String
  | [] => acc
  | f :: fs => headerKeyUnionAux (insertNewKeys acc (f.header.map Prod.fst)) fs

/-- Key union across the header blocks of all files, first-appearance
order. -/
def headerKeyUnion (files : List CsvFile) : List String :=
  headerKeyUnionAux [] files

/-- The header-table row contributed by one file: the file itself plus one
field per unioned raw key, with the `# ` prefix stripped from the key and
the file's own value (or `none`) attached.  This is the transposed row of
the `pd.concat(..., axis=1)` block after the index strip. -/
def mkHeaderRecord (unionKeys : List String) (f : CsvFile) : HeaderRecord :=
  { file := f, fields := unionKeys.map (fun k => (stripHash k, lookupPairs k f.header)) }

/-- Embedding of `get_scada_headers`: build one row per SCADA file with the
stripped header fields aligned on the key union, or fail like
`pd.concat` does when the file list is empty. -/
def get_scada_headers (scada_files : List CsvFile) : Except String HeaderTable :=
  if scada_files.isEmpty then .error "No objects to concatenate"
  else .ok ⟨scada_files.map (mkHeaderRecord (headerKeyUnion scada_files))⟩

/-- Default `use_columns` of `get_scada_df`. -/
def defaultUseColumns : List String :=
  ["# Date and time",
   "Power (kW)",
   "Wind speed (m/s)",
   "Wind direction (°)",
   "Nacelle position (°)",
   "Nacelle ambient temperature (°C)",
   "Blade angle (pitch position) A (°)"]

/-- Turbine value of a header record: the `Turbine` column, `none` when the
column is missing or the file did not declare it (NaN). -/
def recordTurbine (r : HeaderRecord) : Option String :=
  match lookupPairs "Turbine" r.fields with
  | some v => v
  | none => none

/-- The filter `scada_headers["Turbine"] == turbine` of one row, with pandas
NaN semantics: a NaN (here `none`) turbine value compares unequal to
everything, including NaN itself. -/
def turbineMatches (t : Option String) (r : HeaderRecord) : Bool :=
  match t, recordTurbine r with
  | some a, some b => a = b
  | _, _ => false

/-- The `File` list of the header rows whose `Turbine` column equals `t`
(`scada_headers.loc[scada_headers["Turbine"] == turbine]["File"]`). -/
def filesOf (h : HeaderTable) (t : Option String) : List CsvFile :=
  (h.records.filter (fun r => turbineMatches t r)).map (fun r => r.file)

/-- Embedding of the per-file `pd.read_csv(f, index_col="# Date and time",
skiprows=9, usecols=use_columns)`: one output row per body row, keeping
the cells whose column name is in the selection.  The timestamp index is
structural (the body's first column), so it is kept regardless. -/
def readScadaFile (cols : List String) (f : CsvFile) : List ScadaRow :=
  f.body.map (fun r => { timestamp := r.time, cells := r.cells.filter (fun c => cols.contains c.1), turbine := none })

/-- Tag every row with a turbine identifier
(`scada_wt["Turbine"] = turbine`). -/
def tagRows (t : Option String) (rows : List ScadaRow) : List ScadaRow :=
  rows.map (fun r => { r with turbine := t })

/-- The distinct turbine values of the header table, in order of first
appearance (`scada_headers["Turbine"].unique()`). -/
def scadaTurbines (scada_headers : HeaderTable) : List (Option String) :=
  uniqueFirst (scada_headers.records.map recordTurbine)

/-- The loop body of `get_scada_df` for one turbine: concatenate the reads
of that turbine's files in file-list order and tag every row
(`scada_wt`). -/
def scadaBlock (scada_headers : HeaderTable) (cols : List String) (t : Option String) : List ScadaRow :=
  tagRows t (((filesOf scada_headers t).map (readScadaFile cols)).flatten)

/-- Embedding of `get_scada_df`: for each distinct turbine value of the
header table, concatenate the bodies of that turbine's files (in file
order), tag the rows, and concatenate the per-turbine blocks in
turbine-discovery order.  `pd.concat` of an empty collection raises, so
an empty turbine list or a turbine with no matching file yields an
error. -/
def get_scada_df (scada_headers : HeaderTable) (use_columns : Option (List String)) : Except String (List ScadaRow) :=
  if (scadaTurbines scada_headers).isEmpty then .error "No objects to concatenate"
  else if (scadaTurbines scada_headers).any (fun t => (filesOf scada_headers t).isEmpty) then
    .error "No objects to concatenate"
  else .ok (((scadaTurbines scada_headers).map
    (scadaBlock scada_headers (use_columns.getD defaultUseColumns))).flatten)

/-- The restricted column selector of `get_curtailment_df`. -/
def curtailUseColumns : List String :=
  ["# Date and time",
   "Lost Production to Curtailment (Total) (kWh)",
   "Lost Production to Downtime (kWh)"]

/-- Embedding of `get_curtailment_df`: `get_scada_df` with the curtailment
column selector. -/
def get_curtailment_df (scada_headers : HeaderTable) : Except String (List ScadaRow) :=
  get_scada_df scada_headers (some curtailUseColumns)

/-- The two-column selector of `get_meter_data`. -/
def meterUseColumns : List String :=
  ["# Date and time", "GMS Energy Export (kWh)"]

/-- Embedding of the meter-file read (`skiprows=10`, two-column
selection). -/
def readMeterFile (f : CsvFile) : List ScadaRow :=
  f.body.map (fun r => { timestamp := r.time, cells := r.cells.filter (fun c => meterUseColumns.contains c.1), turbine := none })

/-- Embedding of `get_meter_data`: glob for `Device*PMU*.csv` under the
search path (the file system is modelled as the list of files rglob
enumerates, in enumeration order), then read `meter_files[0]`.  An empty
match list raises `IndexError`, as Python list indexing does. -/
def get_meter_data (fs : List CsvFile) : Except String (List ScadaRow) :=
  let meter_files := fs.filter (fun f => globMatchStr "Device*PMU*.csv" f.path)
  match meter_files with
  | [] => .error "list index out of range"
  | f :: _ => .ok (readMeterFile f)

/-- The SCADA glob pattern of `prepare`: `Turbine_Data*{year}*.csv` when a
year filter is given, `Turbine_Data*.csv` otherwise. -/
def scadaPattern (year : Option Nat) : String :=
  match year with
  | some y => "Turbine_Data*" ++ toString y ++ "*.csv"
  | none => "Turbine_Data*.csv"

/-- File discovery of the SCADA stage of `prepare`
(`Path(path).rglob(...)`). -/
def discoverScadaFiles (fs : List CsvFile) (year : Option Nat) : List CsvFile :=
  fs.filter (fun f => globMatchStr (scadaPattern year) f.path)

/-- The SCADA stage of `prepare`: discover the files, build the header
table, build the long-format SCADA table. -/
def scadaStage (fs : List CsvFile) (year : Option Nat) : Except String (List ScadaRow) :=
  (get_scada_headers (discoverScadaFiles fs year)).bind (fun h => get_scada_df h none)

/-- Existence check plus read of an exact-path optional file
(`Path(...).exists()` followed by `pd.read_csv`). -/
def findFile (fs : List CsvFile) (p : String) : Option CsvFile :=
  fs.find? (fun f => f.path = p)

/-- Embedding of the reanalysis stage of `prepare`.  Each optional product
is existence-checked independently; a present MERRA2 file adds the
`merra2` entry and a present ERA5 file adds the `era5` entry.  The MERRA2
monthly 10m file is also existence-checked and read (into
`reanalysis_merra2_monthly_df`), but the source never updates the dict
with it, so no entry is added for it; the read result is dropped. -/
def reanalysisStage (fs : List CsvFile) (asset : String) : List (String × CsvFile) :=
  let d0 : List (String × CsvFile) := []
  let d1 := match findFile fs (asset ++ "_merra2.csv") with
    | some f => d0 ++ [("merra2", f)]
    | none => d0
  let d2 := match findFile fs (asset ++ "_era5.csv") with
    | some f => d1 ++ [("era5", f)]
    | none => d1
  let _dropped := findFile fs ("merra2_monthly_10m/" ++ asset ++ "_merra2_monthly_10m.csv")
  d2

/-- One row of the static asset table, restricted to the columns that
`prepare` aggregates (the other static columns play no role in the
claims).  Values are rationals standing in for the parsed floats. -/
structure AssetRow where
  latitude : ℚ
  longitude : ℚ
  ratedPower : ℚ
  deriving DecidableEq, Repr

/-- The asset dataframe after `dropna(how="all")`. -/
abbrev AssetTable := List AssetRow

/-- Column mean as computed by `asset_df["Latitude"].mean()`. -/
def meanLatitude (a : AssetTable) : ℚ :=
  (a.map (fun r => r.latitude)).sum / a.length

/-- Column mean as computed by `asset_df["Longitude"].mean()`. -/
def meanLongitude (a : AssetTable) : ℚ :=
  (a.map (fun r => r.longitude)).sum / a.length

/-- Column sum as computed by `asset_df["Rated power (kW)"].sum()`. -/
def sumRatedPower (a : AssetTable) : ℚ :=
  (a.map (fun r => r.ratedPower)).sum

/-- A value of the metadata document: a plain string, the `str()` rendering
of a computed float (kept as the underlying rational), or a flat mapping
section. -/
inductive MetaVal where
  | s (v : String)
  | numStr (q : ℚ)
  | m (entries : List (String × String))
  deriving DecidableEq, Repr

/-- Embedding of the `asset_json` dict literal of `prepare`, in source
order.  Only `latitude`, `longitude` and `capacity` depend on the asset
table; every other entry is a constant of the dataset family. -/
def buildAssetJson (a : AssetTable) : List (String × MetaVal) :=
  [("asset", .m [("elevation", "Elevation (m)"),
                 ("hub_height", "Hub Height (m)"),
                 ("asset_id", "Title"),
                 ("latitude", "Latitude"),
                 ("longitude", "Longitude"),
                 ("rated_power", "Rated power (kW)"),
                 ("rotor_diameter", "Rotor Diameter (m)")]),
   ("curtail", .m [("IAVL_DnWh", "Lost Production to Downtime (kWh)"),
                   ("IAVL_ExtPwrDnWh", "Lost Production to Curtailment (Total) (kWh)"),
                   ("frequency", "10min"),
                   ("time", "Timestamp")]),
   ("latitude", .numStr (meanLatitude a)),
   ("longitude", .numStr (meanLongitude a)),
   ("capacity", .numStr (sumRatedPower a / 1000)),
   ("meter", .m [("MMTR_SupWh", "GMS Energy Export (kWh)"),
                 ("time", "Timestamp")]),
   ("reanalysis", .m []),
   ("scada", .m [("WMET_EnvTmp", "Nacelle ambient temperature (°C)"),
                 ("WMET_HorWdDir", "Wind direction (°)"),
                 ("WMET_HorWdSpd", "Wind speed (m/s)"),
                 ("WROT_BlPthAngVal", "Blade angle (pitch position) A (°)"),
                 ("asset_id", "Turbine"),
                 ("WTUR_W", "Power (kW)"),
                 ("frequency", "10min"),
                 ("time", "Timestamp")])]

/-- Insert a keyed pair into a key-sorted association list. -/
def insertByKey {α : Type} (p : String × α) : List (String × α) → List (String × α)
  | [] => [p]
  | q :: rest => if p.1 ≤ q.1 then p :: q :: rest else q :: insertByKey p rest

/-- Sort an association list by key (ascending), as Python's serialisers do
when asked to sort dict keys. -/
def sortPairs {α : Type} : List (String × α) → List (String × α)
  | [] => []
  | p :: rest => insertByKey p (sortPairs rest)

/-- Sort the entries of a mapping value; scalar values are untouched. -/
def sortVal : MetaVal → MetaVal
  | .m e => .m (sortPairs e)
  | v => v

/-- Recursively key-sort a metadata document, modelling
`yaml.dump`'s default `sort_keys=True`. -/
def sortDoc (d : List (String × MetaVal)) : List (String × MetaVal) :=
  sortPairs (d.map (fun p => (p.1, sortVal p.2)))

/-- A serialised metadata artifact, modelled at the data level of the
serialisation libraries' interface: `json` keeps the document in dict
insertion order and records the indentation width; `yaml` (block style,
default `sort_keys=True`) holds the recursively key-sorted document. -/
inductive MetaArtifact where
  | json (doc : List (String × MetaVal)) (indent : Nat)
  | yaml (doc : List (String × MetaVal))
  deriving DecidableEq, Repr

/-- Model of `json.dump(asset_json, outfile, indent=2)` at the data
level. -/
def jsonDump (d : List (String × MetaVal)) : MetaArtifact :=
  .json d 2

/-- Model of `yaml.dump(asset_json, outfile, default_flow_style=False)` at
the data level (keys sorted, as `sort_keys` defaults to true). -/
def yamlDump (d : List (String × MetaVal)) : MetaArtifact :=
  .yaml (sortDoc d)

/-- The metadata files written by `prepare`, in write order: the document
rendered to `plant_meta.json` and to `plant_meta.yml`. -/
def writeMetaFiles (a : AssetTable) : List (String × MetaArtifact) :=
  [("plant_meta.json", jsonDump (buildAssetJson a)),
   ("plant_meta.yml", yamlDump (buildAssetJson a))]

/-- Deserialising an artifact recovers the key/value document it encodes
(order is whatever the serialisation stored). -/
def deserialize : MetaArtifact → List (String × MetaVal)
  | .json d _ => d
  | .yaml d => d

/-- Equality of metadata values as deserialised documents: mapping sections
compare by lookup, scalars by value. -/
def valEquiv : MetaVal → MetaVal → Prop
  | .m e1, .m e2 => ∀ k, lookupPairs k e1 = lookupPairs k e2
  | v1, v2 => v1 = v2

/-- Lifted `valEquiv` on optional lookup results. -/
def optValEquiv : Option MetaVal → Option MetaVal → Prop
  | some v1, some v2 => valEquiv v1 v2
  | none, none => True
  | _, _ => False

/-- Equivalence of two deserialised metadata documents: every key looks up
to equivalent values. -/
def docEquiv (d1 d2 : List (String × MetaVal)) : Prop :=
  ∀ k, optValEquiv (lookupPairs k d1) (lookupPairs k d2)

/-- The `return_value` selector of `prepare`
(`Literal["dataframes", "plantdata"]`). -/
inductive ReturnValue where
  | dataframes
  | plantdata
  deriving DecidableEq, Repr

/-- The `PlantData` construction at the end of `prepare`, modelled at its
interface: the constructor arguments the script passes. -/
structure PlantDataModel where
  analysis_type : String
  metadata : String
  scada : List ScadaRow
  meter : List ScadaRow
  curtail : List ScadaRow
  asset : AssetTable
  reanalysis : List (String × CsvFile)
  deriving DecidableEq, Repr

/-- The two terminal output shapes of `prepare`. -/
inductive PrepareReturn where
  | dataframes (scada meter curtail : List ScadaRow) (asset : AssetTable)
      (reanalysis : List (String × CsvFile))
  | plantdata (p : PlantDataModel)
  deriving DecidableEq, Repr

/-- Embedding of the final packaging branch of `prepare`: the
`"dataframes"` shape returns the five tables including the discovered
reanalysis dict; the `"plantdata"` shape constructs `PlantData` with
`reanalysis={}` — the empty dict literal, not the discovered dict. -/
def packageReturn (rv : ReturnValue) (scada meter curtail : List ScadaRow)
    (asset : AssetTable) (reanalysis_dict : List (String × CsvFile))
    (metaPath : String) : PrepareReturn :=
  match rv with
  | .dataframes => .dataframes scada meter curtail asset reanalysis_dict
  | .plantdata => .plantdata
      { analysis_type := "MonteCarloAEP"
        metadata := metaPath
        scada := scada
        meter := meter
        curtail := curtail
        asset := asset
        reanalysis := [] }

/-- The reanalysis mapping visible in a returned value. -/
def returnedReanalysis : PrepareReturn → List (String × CsvFile)
  | .dataframes _ _ _ _ r => r
  | .plantdata p => p.reanalysis

end Kelmarsh

namespace Kelmarsh

theorem mem_uniqueFirstAux {α : Type} [DecidableEq α] (l : List α) :
    ∀ (seen : List α) (x : α), x ∈ uniqueFirstAux seen l ↔ x ∈ l ∧ x ∉ seen := by
  induction l with
  | nil => intro seen x; simp [uniqueFirstAux]
  | cons a as ih =>
    intro seen x
    by_cases ha : a ∈ seen
    · simp only [uniqueFirstAux, if_pos ha, ih]
      constructor
      · rintro ⟨hx, hs⟩; exact ⟨List.mem_cons_of_mem _ hx, hs⟩
      · rintro ⟨hx, hs⟩
        rcases List.mem_cons.mp hx with rfl | hx
        · exact absurd ha hs
        · exact ⟨hx, hs⟩
    · simp only [uniqueFirstAux, if_neg ha, List.mem_cons, ih]
      constructor
      · rintro (rfl | ⟨hx, hs⟩)
        · exact ⟨Or.inl rfl, ha⟩
        · refine ⟨Or.inr hx, fun hc => hs (List.mem_append_left _ hc)⟩
      · rintro ⟨rfl | hx, hs⟩
        · exact Or.inl rfl
        · by_cases hxa : x = a
          · exact Or.inl hxa
          · refine Or.inr ⟨hx, fun hc => ?_⟩
            rcases List.mem_append.mp hc with hc | hc
            · exact hs hc
            · exact hxa (List.mem_singleton.mp hc)

theorem mem_uniqueFirst {α : Type} [DecidableEq α] (l : List α) (x : α) :
    x ∈ uniqueFirst l ↔ x ∈ l := by
  simp [uniqueFirst, mem_uniqueFirstAux]

theorem nodup_uniqueFirstAux {α : Type} [DecidableEq α] (l : List α) :
    ∀ seen : List α, (uniqueFirstAux seen l).Nodup := by
  induction l with
  | nil => intro seen; simp [uniqueFirstAux]
  | cons a as ih =>
    intro seen
    by_cases ha : a ∈ seen
    · simpa [uniqueFirstAux, if_pos ha] using ih seen
    · simp only [uniqueFirstAux, if_neg ha]
      refine List.Nodup.cons ?_ (ih (seen ++ [a]))
      intro hmem
      have hma := (mem_uniqueFirstAux as (seen ++ [a]) a).mp hmem
      exact hma.2 (List.mem_append_right _ (List.mem_singleton.mpr rfl))

theorem nodup_uniqueFirst {α : Type} [DecidableEq α] (l : List α) :
    (uniqueFirst l).Nodup :=
  nodup_uniqueFirstAux l []

theorem flatten_filter_perm {α β γ : Type} [DecidableEq β] (key : α → β) (g : α → List γ) :
    ∀ (keys : List β) (l : List α), keys.Nodup → (∀ x ∈ l, key x ∈ keys) →
      ((keys.map (fun t => ((l.filter (fun x => decide (key x = t))).map g).flatten)).flatten).Perm
        ((l.map g).flatten) := by
  intro keys
  induction keys with
  | nil =>
    intro l _ hcov
    have : l = [] := List.eq_nil_iff_forall_not_mem.mpr (fun x hx => by simpa using hcov x hx)
    subst this; simp
  | cons k ks ih =>
    intro l hnd hcov
    have hknotin : k ∉ ks := (List.nodup_cons.mp hnd).1
    have hndks : ks.Nodup := (List.nodup_cons.mp hnd).2
    have hfilter : ∀ t ∈ ks,
        l.filter (fun x => decide (key x = t))
          = (l.filter (fun x => !decide (key x = k))).filter (fun x => decide (key x = t)) := by
      intro t ht
      rw [List.filter_filter]
      apply List.filter_congr
      intro x _
      by_cases hxt : key x = t
      · have htk : t ≠ k := fun hc => hknotin (hc ▸ ht)
        simp [hxt, htk]
      · simp [hxt]
    have hmapeq :
        ks.map (fun t => ((l.filter (fun x => decide (key x = t))).map g).flatten)
          = ks.map (fun t => (((l.filter (fun x => !decide (key x = k))).filter (fun x => decide (key x = t))).map g).flatten) :=
      List.map_congr_left (fun t ht => by rw [hfilter t ht])
    have hcov2 : ∀ x ∈ l.filter (fun x => !decide (key x = k)), key x ∈ ks := by
      intro x hx
      have hxl := List.mem_of_mem_filter hx
      have hne : ¬(key x = k) := by
        have := List.of_mem_filter hx
        simpa using this
      rcases List.mem_cons.mp (hcov x hxl) with h | h
      · exact absurd h hne
      · exact h
    rw [List.map_cons, List.flatten_cons, hmapeq]
    have ihh := ih (l.filter (fun x => !decide (key x = k))) hndks hcov2
    have hp : (l.filter (fun x => decide (key x = k)) ++ l.filter (fun x => !decide (key x = k))).Perm l :=
      List.filter_append_perm _ l
    have hfin := (hp.map g).flatten
    rw [List.map_append, List.flatten_append] at hfin
    exact (List.Perm.append_left _ ihh).trans hfin

end Kelmarsh

namespace Kelmarsh

theorem tagRows_flatten (t : Option String) (L : List (List ScadaRow)) :
    tagRows t L.flatten = (L.map (tagRows t)).flatten := by
  unfold tagRows
  exact List.map_flatten _ L

theorem length_tagRows (t : Option String) (rows : List ScadaRow) :
    (tagRows t rows).length = rows.length := by
  simp [tagRows]

theorem turbine_of_mem_tagRows (t : Option String) (rows : List ScadaRow) (r : ScadaRow)
    (hr : r ∈ tagRows t rows) : r.turbine = t := by
  simp only [tagRows, List.mem_map] at hr
  rcases hr with ⟨r', _, rfl⟩
  rfl

theorem length_readScadaFile (cols : List String) (f : CsvFile) :
    (readScadaFile cols f).length = f.body.length := by
  simp [readScadaFile]

theorem turbineMatches_some (a : String) (r : HeaderRecord) :
    turbineMatches (some a) r = decide (recordTurbine r = some a) := by
  unfold turbineMatches
  cases h : recordTurbine r with
  | none => simp
  | some b => by_cases hab : a = b <;> simp [hab] <;> exact fun hc => hab hc.symm

theorem turbineMatches_none (r : HeaderRecord) : turbineMatches none r = false := by
  unfold turbineMatches
  cases recordTurbine r <;> rfl

theorem filesOf_none (h : HeaderTable) : filesOf h none = [] := by
  simp [filesOf, turbineMatches_none]

theorem get_scada_df_ok_iff (h : HeaderTable) (uc : Option (List String)) (rows : List ScadaRow) :
    get_scada_df h uc = .ok rows ↔
      scadaTurbines h ≠ [] ∧
      (∀ t ∈ scadaTurbines h, filesOf h t ≠ []) ∧
      rows = ((scadaTurbines h).map (scadaBlock h (uc.getD defaultUseColumns))).flatten := by
  unfold get_scada_df
  split
  · rename_i hempty
    simp only [List.isEmpty_iff] at hempty
    constructor
    · intro hc; cases hc
    · rintro ⟨hne, -, -⟩; exact absurd hempty hne
  · rename_i hempty
    simp only [List.isEmpty_iff] at hempty
    split
    · rename_i hany
      constructor
      · intro hc; cases hc
      · rintro ⟨-, hall, -⟩
        rcases List.any_eq_true.mp hany with ⟨t, ht, hemp⟩
        exact absurd (List.isEmpty_iff.mp hemp) (hall t ht)
    · rename_i hany
      constructor
      · intro hok
        refine ⟨hempty, ?_, (Except.ok.injEq _ _).mp hok.symm⟩
        intro t ht hemp
        exact hany (List.any_eq_true.mpr ⟨t, ht, List.isEmpty_iff.mpr hemp⟩)
      · rintro ⟨-, -, rfl⟩; rfl

theorem uniqueFirstAux_skip_seen {β : Type} [DecidableEq β] :
    ∀ (xs ys seen : List β), (∀ x ∈ xs, x ∈ seen) →
      uniqueFirstAux seen (xs ++ ys) = uniqueFirstAux seen ys := by
  intro xs
  induction xs with
  | nil => intro ys seen _; rfl
  | cons a rest ih =>
    intro ys seen hall
    have ha : a ∈ seen := hall a (List.mem_cons_self _ _)
    simp only [List.cons_append, uniqueFirstAux, if_pos ha]
    exact ih ys seen (fun x hx => hall x (List.mem_cons_of_mem _ hx))

theorem uniqueFirstAux_append_const {β : Type} [DecidableEq β]
    (xs ys : List β) (k : β) (seen : List β) (hne : xs ≠ [])
    (hconst : ∀ x ∈ xs, x = k) (hk : k ∉ seen) :
    uniqueFirstAux seen (xs ++ ys) = k :: uniqueFirstAux (seen ++ [k]) ys := by
  cases xs with
  | nil => exact absurd rfl hne
  | cons a rest =>
    have ha : a = k := hconst a (List.mem_cons_self _ _)
    subst ha
    simp only [List.cons_append, uniqueFirstAux, if_neg hk]
    congr 1
    exact uniqueFirstAux_skip_seen rest ys (seen ++ [a])
      (fun x hx => by
        have := hconst x (List.mem_cons_of_mem _ hx)
        subst this
        exact List.mem_append_right _ (List.mem_singleton.mpr rfl))

theorem uniqueFirstAux_flatten_blocks {β γ : Type} [DecidableEq β] (tagOf : γ → β) :
    ∀ (keys : List β) (bl : β → List γ) (seen : List β), keys.Nodup →
      (∀ k ∈ keys, bl k ≠ []) → (∀ k ∈ keys, ∀ x ∈ bl k, tagOf x = k) →
      (∀ k ∈ keys, k ∉ seen) →
      uniqueFirstAux seen (((keys.map bl).flatten).map tagOf) = keys := by
  intro keys
  induction keys with
  | nil => intro bl seen _ _ _ _; rfl
  | cons k ks ih =>
    intro bl seen hnd hne htags hseen
    simp only [List.map_cons, List.flatten_cons, List.map_append]
    rw [uniqueFirstAux_append_const _ _ k seen]
    · congr 1
      apply ih bl (seen ++ [k]) (List.nodup_cons.mp hnd).2
        (fun t ht => hne t (List.mem_cons_of_mem _ ht))
        (fun t ht => htags t (List.mem_cons_of_mem _ ht))
      intro t ht hc
      rcases List.mem_append.mp hc with hc | hc
      · exact hseen t (List.mem_cons_of_mem _ ht) hc
      · exact (List.nodup_cons.mp hnd).1 ((List.mem_singleton.mp hc) ▸ ht)
    · intro hc
      exact hne k (List.mem_cons_self _ _) (List.map_eq_nil_iff.mp hc)
    · intro x hx
      rcases List.mem_map.mp hx with ⟨y, hy, rfl⟩
      exact htags k (List.mem_cons_self _ _) y hy
    · exact hseen k (List.mem_cons_self _ _)

theorem filter_flatten_tagged {β γ : Type} [DecidableEq β] (tagOf : γ → β) :
    ∀ (keys : List β) (bl : β → List γ) (t : β), keys.Nodup → t ∈ keys →
      (∀ k ∈ keys, ∀ x ∈ bl k, tagOf x = k) →
      ((keys.map bl).flatten).filter (fun x => decide (tagOf x = t)) = bl t := by
  intro keys
  induction keys with
  | nil => intro bl t _ ht _; cases ht
  | cons k ks ih =>
    intro bl t hnd ht htags
    simp only [List.map_cons, List.flatten_cons, List.filter_append]
    rcases List.mem_cons.mp ht with rfl | ht'
    · have h1 : (bl t).filter (fun x => decide (tagOf x = t)) = bl t := by
        apply List.filter_eq_self.mpr
        intro x hx
        simp [htags t (List.mem_cons_self _ _) x hx]
      have h2 : ((ks.map bl).flatten).filter (fun x => decide (tagOf x = t)) = [] := by
        apply List.filter_eq_nil_iff.mpr
        intro x hx
        rcases List.mem_flatten.mp hx with ⟨l, hl, hxl⟩
        rcases List.mem_map.mp hl with ⟨k', hk', rfl⟩
        have := htags k' (List.mem_cons_of_mem _ hk') x hxl
        simp [this]
        exact fun hc => (List.nodup_cons.mp hnd).1 (hc ▸ hk')
      rw [h1, h2, List.append_nil]
    · have hkt : k ≠ t := fun hc => (List.nodup_cons.mp hnd).1 (hc ▸ ht')
      have h1 : (bl k).filter (fun x => decide (tagOf x = t)) = [] := by
        apply List.filter_eq_nil_iff.mpr
        intro x hx
        have := htags k (List.mem_cons_self _ _) x hx
        simp [this]
        exact fun hc => hkt hc
      rw [h1, List.nil_append]
      exact ih bl t (List.nodup_cons.mp hnd).2 ht'
        (fun k' hk' => htags k' (List.mem_cons_of_mem _ hk'))

end Kelmarsh

namespace Kelmarsh

theorem turbineMatches_true_turbine_eq (t : Option String) (r : HeaderRecord)
    (hm : turbineMatches t r = true) : recordTurbine r = t := by
  unfold turbineMatches at hm
  cases ht : t with
  | none => rw [ht] at hm; cases hrt : recordTurbine r <;> rw [hrt] at hm <;> cases hm
  | some a =>
    rw [ht] at hm
    cases hrt : recordTurbine r with
    | none => rw [hrt] at hm; cases hm
    | some b => rw [hrt] at hm; simp at hm; simp [hm]

theorem scadaTurbines_mem_some (h : HeaderTable)
    (hall : ∀ t ∈ scadaTurbines h, filesOf h t ≠ []) :
    ∀ t ∈ scadaTurbines h, ∃ a, t = some a := by
  intro t ht
  cases t with
  | none => exact absurd (filesOf_none h) (hall none ht)
  | some a => exact ⟨a, rfl⟩

theorem scadaBlock_eq_flatten_contrib (h : HeaderTable) (cols : List String)
    (t : Option String) (a : String) (ha : t = some a) :
    scadaBlock h cols t
      = ((h.records.filter (fun r => decide (recordTurbine r = t))).map
          (fun r => tagRows (recordTurbine r) (readScadaFile cols r.file))).flatten := by
  subst ha
  unfold scadaBlock filesOf
  rw [tagRows_flatten, List.map_map, List.map_map]
  have hf : h.records.filter (fun r => turbineMatches (some a) r)
      = h.records.filter (fun r => decide (recordTurbine r = some a)) :=
    List.filter_congr (fun r _ => turbineMatches_some a r)
  rw [hf]
  congr 1
  apply List.map_congr_left
  intro r hr
  have hrt : recordTurbine r = some a := by
    have := List.of_mem_filter hr
    simpa using this
  simp [Function.comp, hrt]

theorem get_scada_df_rows_perm (h : HeaderTable) (uc : Option (List String)) (rows : List ScadaRow)
    (hok : get_scada_df h uc = .ok rows) :
    rows.Perm ((h.records.map (fun r =>
      tagRows (recordTurbine r) (readScadaFile (uc.getD defaultUseColumns) r.file))).flatten) := by
  rcases (get_scada_df_ok_iff h uc rows).mp hok with ⟨hne, hall, hrows⟩
  have hsome := scadaTurbines_mem_some h hall
  have hblocks : (scadaTurbines h).map (scadaBlock h (uc.getD defaultUseColumns))
      = (scadaTurbines h).map (fun t =>
          ((h.records.filter (fun r => decide (recordTurbine r = t))).map
            (fun r => tagRows (recordTurbine r) (readScadaFile (uc.getD defaultUseColumns) r.file))).flatten) := by
    apply List.map_congr_left
    intro t ht
    rcases hsome t ht with ⟨a, rfl⟩
    exact scadaBlock_eq_flatten_contrib h _ _ a rfl
  rw [hrows, hblocks]
  exact flatten_filter_perm recordTurbine _ (scadaTurbines h) h.records
    (nodup_uniqueFirst _) (fun x hx => (mem_uniqueFirst _ _).mpr (List.mem_map_of_mem _ hx))

theorem scadaBlock_ne_nil (h : HeaderTable) (cols : List String) (t : Option String)
    (hfne : filesOf h t ≠ [])
    (hbody : ∀ f ∈ filesOf h t, f.body ≠ []) :
    scadaBlock h cols t ≠ [] := by
  unfold scadaBlock tagRows
  intro hc
  rcases List.exists_mem_of_ne_nil _ hfne with ⟨f0, hf0⟩
  have hrd : readScadaFile cols f0 ∈ (filesOf h t).map (readScadaFile cols) :=
    List.mem_map_of_mem _ hf0
  have hnil := List.map_eq_nil_iff.mp hc
  have : readScadaFile cols f0 = [] := by
    rcases List.flatten_eq_nil_iff.mp hnil _ hrd with h'
    exact h'
  have : f0.body = [] := List.map_eq_nil_iff.mp this
  exact hbody f0 hf0 this

theorem scadaBlock_turbine (h : HeaderTable) (cols : List String) (t : Option String)
    (x : ScadaRow) (hx : x ∈ scadaBlock h cols t) : x.turbine = t :=
  turbine_of_mem_tagRows t _ x hx

theorem filesOf_subset_files (h : HeaderTable) (t : Option String) (f : CsvFile)
    (hf : f ∈ filesOf h t) : f ∈ h.records.map (fun r => r.file) := by
  unfold filesOf at hf
  rcases List.mem_map.mp hf with ⟨r, hr, rfl⟩
  exact List.mem_map_of_mem _ (List.mem_of_mem_filter hr)

end Kelmarsh

namespace Kelmarsh

theorem get_scada_headers_ok_iff (files : List CsvFile) (h : HeaderTable) :
    get_scada_headers files = .ok h ↔
      files ≠ [] ∧ h = ⟨files.map (mkHeaderRecord (headerKeyUnion files))⟩ := by
  unfold get_scada_headers
  split
  · rename_i hemp
    simp only [List.isEmpty_iff] at hemp
    constructor
    · intro hc; cases hc
    · rintro ⟨hne, -⟩; exact absurd hemp hne
  · rename_i hemp
    simp only [List.isEmpty_iff] at hemp
    constructor
    · intro hok
      exact ⟨hemp, ((Except.ok.injEq _ _).mp hok).symm⟩
    · rintro ⟨-, rfl⟩; rfl

/-- Turbine identifier a file contributes to the header table: its
`# Turbine` header value as seen through the stripped, union-aligned
header record. -/
def fileTurbineId (files : List CsvFile) (f : CsvFile) : Option String :=
  recordTurbine (mkHeaderRecord (headerKeyUnion files) f)

theorem uniqueFirst_flatten_blocks {β γ : Type} [DecidableEq β] (tagOf : γ → β)
    (keys : List β) (bl : β → List γ) (hnd : keys.Nodup)
    (hne : ∀ k ∈ keys, bl k ≠ []) (htags : ∀ k ∈ keys, ∀ x ∈ bl k, tagOf x = k) :
    uniqueFirst (((keys.map bl).flatten).map tagOf) = keys :=
  uniqueFirstAux_flatten_blocks tagOf keys bl [] hnd hne htags (fun k _ hc => (List.not_mem_nil k) hc)

theorem records_map_file (files : List CsvFile) :
    (files.map (mkHeaderRecord (headerKeyUnion files))).map (fun r => r.file) = files := by
  rw [List.map_map]
  exact List.map_id files

/-- Claim C1 (amended): the long-format SCADA table is a permutation of the
tagged reads of all input files (every input row appears exactly once),
so its row count is the sum of the files' body-row counts; and provided
every file has at least one body row, the turbine column takes exactly
as many distinct values as the file set declares distinct turbine
identifiers. -/
theorem scada_concat_row_preservation (files : List CsvFile) (h : HeaderTable) (rows : List ScadaRow)
    (hh : get_scada_headers files = .ok h)
    (hr : get_scada_df h none = .ok rows) :
    rows.Perm ((files.map (fun f =>
        tagRows (fileTurbineId files f) (readScadaFile defaultUseColumns f))).flatten)
    ∧ rows.length = (files.map (fun f => f.body.length)).sum
    ∧ ((∀ f ∈ files, f.body ≠ []) →
        (uniqueFirst (rows.map ScadaRow.turbine)).length
          = (uniqueFirst (files.map (fileTurbineId files))).length) := by
  rcases (get_scada_headers_ok_iff files h).mp hh with ⟨hfne, hrec⟩
  have hperm := get_scada_df_rows_perm h none rows hr
  rw [hrec] at hperm
  simp only [List.map_map] at hperm
  have hperm' : rows.Perm ((files.map (fun f =>
      tagRows (fileTurbineId files f) (readScadaFile defaultUseColumns f))).flatten) := hperm
  refine ⟨hperm', ?_, ?_⟩
  · rw [hperm'.length_eq, List.length_flatten, List.map_map]
    congr 1
    apply List.map_congr_left
    intro f _
    simp [Function.comp, length_tagRows, length_readScadaFile]
  · intro hbody
    rcases (get_scada_df_ok_iff h none rows).mp hr with ⟨hne, hall, hrows⟩
    have hfilesub : ∀ t, ∀ f ∈ filesOf h t, f ∈ files := by
      intro t f hf
      have := filesOf_subset_files h t f hf
      rw [hrec] at this
      rwa [records_map_file files] at this
    have huf : uniqueFirst (rows.map ScadaRow.turbine) = scadaTurbines h := by
      rw [hrows]
      exact uniqueFirst_flatten_blocks ScadaRow.turbine (scadaTurbines h) _ (nodup_uniqueFirst _)
        (fun t ht => scadaBlock_ne_nil h _ t (hall t ht)
          (fun f hf => hbody f (hfilesub t f hf)))
        (fun t ht x hx => scadaBlock_turbine h _ t x hx)
    rw [huf]
    unfold scadaTurbines
    rw [hrec]
    simp only [List.map_map]
    rfl

/-- Concrete counterexample input for C1 as stated: one SCADA file that
declares turbine `T1` but has an empty body. -/
def cexFile : CsvFile :=
  ⟨"Turbine_Data_cex.csv", [("# Turbine", "T1")], []⟩

/-- The header table built from the counterexample file. -/
def cexHeader : HeaderTable :=
  ⟨[mkHeaderRecord (headerKeyUnion [cexFile]) cexFile]⟩

/-- Claim C1 counterexample: for the one-file set `[cexFile]` (one distinct
turbine identifier), `get_scada_df` succeeds and returns the empty table,
whose turbine column takes 0 distinct values, not 1. -/
theorem scada_distinct_count_cex :
    get_scada_headers [cexFile] = .ok cexHeader
    ∧ get_scada_df cexHeader none = .ok []
    ∧ (uniqueFirst (([] : List ScadaRow).map ScadaRow.turbine)).length = 0
    ∧ (uniqueFirst ([cexFile].map (fileTurbineId [cexFile]))).length = 1
    ∧ (0 : Nat) ≠ 1 :=
  ⟨rfl, rfl, rfl, rfl, by decide⟩

/-- Witness input: two single-file turbines with nonempty bodies. -/
def wScadaA : CsvFile :=
  ⟨"Turbine_Data_K1_2020.csv", [("# Turbine", "T1")],
   [⟨"t0", [("Power (kW)", "1"), ("Lost Production to Downtime (kWh)", "0")]⟩,
    ⟨"t1", [("Power (kW)", "2")]⟩]⟩

/-- Witness input: the second turbine's single file. -/
def wScadaB : CsvFile :=
  ⟨"Turbine_Data_K2_2020.csv", [("# Turbine", "T2")],
   [⟨"t0", [("Power (kW)", "3")]⟩]⟩

/-- The witness file set. -/
def wScadaFiles : List CsvFile := [wScadaA, wScadaB]

/-- The witness header table. -/
def wScadaHeader : HeaderTable :=
  ⟨wScadaFiles.map (mkHeaderRecord (headerKeyUnion wScadaFiles))⟩

/-- The SCADA table `get_scada_df` produces for the witness input. -/
def wScadaRows : List ScadaRow :=
  [⟨"t0", [("Power (kW)", "1")], some "T1"⟩,
   ⟨"t1", [("Power (kW)", "2")], some "T1"⟩,
   ⟨"t0", [("Power (kW)", "3")], some "T2"⟩]

/-- Witness for C1's amended theorem at the concrete two-file input. -/
theorem scada_concat_row_preservation_witness :
    wScadaRows.Perm ((wScadaFiles.map (fun f =>
        tagRows (fileTurbineId wScadaFiles f) (readScadaFile defaultUseColumns f))).flatten)
    ∧ wScadaRows.length = (wScadaFiles.map (fun f => f.body.length)).sum
    ∧ ((∀ f ∈ wScadaFiles, f.body ≠ []) →
        (uniqueFirst (wScadaRows.map ScadaRow.turbine)).length
          = (uniqueFirst (wScadaFiles.map (fileTurbineId wScadaFiles))).length) :=
  scada_concat_row_preservation wScadaFiles wScadaHeader wScadaRows rfl rfl

end Kelmarsh

namespace Kelmarsh

/-- Claim C7: a turbine with exactly one file in the header table gets a
per-turbine block that is row-identical to reading that single file
directly and tagging it — concatenating a one-element list is the
identity, so the single-file case takes the same path as the multi-file
case. -/
theorem single_file_turbine (h : HeaderTable) (uc : Option (List String))
    (t : Option String) (f : CsvFile) (rows : List ScadaRow)
    (h1 : filesOf h t = [f]) (hr : get_scada_df h uc = .ok rows) :
    rows.filter (fun r => decide (r.turbine = t))
      = tagRows t (readScadaFile (uc.getD defaultUseColumns) f) := by
  rcases (get_scada_df_ok_iff h uc rows).mp hr with ⟨-, -, hrows⟩
  have hfilne : h.records.filter (fun r => turbineMatches t r) ≠ [] := by
    intro hc
    unfold filesOf at h1
    rw [hc] at h1
    simp at h1
  rcases List.exists_mem_of_ne_nil _ hfilne with ⟨r0, hr0⟩
  have hmem : t ∈ scadaTurbines h := by
    have h2 := List.of_mem_filter hr0
    have h3 := turbineMatches_true_turbine_eq t r0 h2
    rw [← h3]
    exact (mem_uniqueFirst _ _).mpr (List.mem_map_of_mem _ (List.mem_of_mem_filter hr0))
  rw [hrows]
  rw [filter_flatten_tagged ScadaRow.turbine (scadaTurbines h) _ t (nodup_uniqueFirst _) hmem
    (fun k _ x hx => scadaBlock_turbine h _ k x hx)]
  unfold scadaBlock
  rw [h1]
  simp

/-- Witness for C7: turbine `T2` of the witness input has exactly one file,
and its rows in the full table equal the tagged direct read of that
file. -/
theorem single_file_turbine_witness :
    wScadaRows.filter (fun r => decide (r.turbine = some "T2"))
      = tagRows (some "T2") (readScadaFile defaultUseColumns wScadaB) :=
  single_file_turbine wScadaHeader none (some "T2") wScadaB wScadaRows rfl rfl

theorem scadaBlock_map_proj (h : HeaderTable) (cols : List String) (t : Option String) :
    (scadaBlock h cols t).map (fun r => (r.timestamp, r.turbine))
      = ((filesOf h t).map (fun f => f.body.map (fun b => (b.time, t)))).flatten := by
  unfold scadaBlock tagRows readScadaFile
  rw [List.map_map, List.map_flatten, List.map_map]
  congr 1
  apply List.map_congr_left
  intro f _
  simp [Function.comp]

theorem get_scada_df_proj_indep (h : HeaderTable) (c c' : Option (List String)) :
    (get_scada_df h c).map (fun rows => rows.map (fun r => (r.timestamp, r.turbine)))
      = (get_scada_df h c').map (fun rows => rows.map (fun r => (r.timestamp, r.turbine))) := by
  unfold get_scada_df
  split
  · rfl
  · split
    · rfl
    · simp only [Except.map]
      congr 1
      rw [List.map_flatten, List.map_flatten, List.map_map, List.map_map]
      congr 1
      apply List.map_congr_left
      intro t _
      simp [Function.comp, scadaBlock_map_proj]

/-- Claim C2: the curtailment view is exactly `get_scada_df` on the same
header table with the curtailment column selector; it has the same
timestamps and turbine tags, row for row, as the default SCADA view of
the same header table; and its cells come only from the restricted
column set. -/
theorem curtailment_refinement (h : HeaderTable) :
    get_curtailment_df h = get_scada_df h (some curtailUseColumns)
    ∧ (get_curtailment_df h).map (fun rows => rows.map (fun r => (r.timestamp, r.turbine)))
        = (get_scada_df h none).map (fun rows => rows.map (fun r => (r.timestamp, r.turbine)))
    ∧ (∀ rows, get_curtailment_df h = .ok rows →
        ∀ r ∈ rows, ∀ c ∈ r.cells, c.1 ∈ curtailUseColumns) := by
  refine ⟨rfl, get_scada_df_proj_indep h _ none, ?_⟩
  intro rows hok r hrrows c hc
  rcases (get_scada_df_ok_iff h _ rows).mp hok with ⟨-, -, hrows⟩
  rw [hrows] at hrrows
  rcases List.mem_flatten.mp hrrows with ⟨blk, hblk, hrblk⟩
  rcases List.mem_map.mp hblk with ⟨t, _, rfl⟩
  unfold scadaBlock tagRows at hrblk
  rcases List.mem_map.mp hrblk with ⟨r', hr', rfl⟩
  rcases List.mem_flatten.mp hr' with ⟨rd, hrd, hr'rd⟩
  rcases List.mem_map.mp hrd with ⟨f, _, rfl⟩
  unfold readScadaFile at hr'rd
  rcases List.mem_map.mp hr'rd with ⟨b, _, rfl⟩
  have hcc := List.of_mem_filter hc
  simpa using hcc

/-- Witness for C2's refinement theorem: the curtailment rows of the
witness input carry only curtailment columns. -/
theorem curtailment_refinement_witness :
    ("Lost Production to Downtime (kWh)", "0").1 ∈ curtailUseColumns :=
  (curtailment_refinement wScadaHeader).2.2
    [⟨"t0", [("Lost Production to Downtime (kWh)", "0")], some "T1"⟩,
     ⟨"t1", [], some "T1"⟩, ⟨"t0", [], some "T2"⟩] rfl
    ⟨"t0", [("Lost Production to Downtime (kWh)", "0")], some "T1"⟩ (by decide)
    ("Lost Production to Downtime (kWh)", "0") (by decide)

end Kelmarsh

namespace Kelmarsh

theorem mem_insertNewKeys (x : String) :
    ∀ (ks acc : List String), x ∈ insertNewKeys acc ks ↔ x ∈ acc ∨ x ∈ ks := by
  intro ks
  induction ks with
  | nil => intro acc; simp [insertNewKeys]
  | cons k rest ih =>
    intro acc
    unfold insertNewKeys
    rw [ih]
    by_cases hk : k ∈ acc
    · rw [if_pos hk]
      constructor
      · rintro (hx | hx)
        · exact Or.inl hx
        · exact Or.inr (List.mem_cons_of_mem _ hx)
      · rintro (hx | hx)
        · exact Or.inl hx
        · rcases List.mem_cons.mp hx with rfl | hx
          · exact Or.inl hk
          · exact Or.inr hx
    · rw [if_neg hk]
      constructor
      · rintro (hx | hx)
        · rcases List.mem_append.mp hx with hx | hx
          · exact Or.inl hx
          · exact Or.inr (List.mem_cons.mpr (Or.inl (List.mem_singleton.mp hx)))
        · exact Or.inr (List.mem_cons_of_mem _ hx)
      · rintro (hx | hx)
        · exact Or.inl (List.mem_append_left _ hx)
        · rcases List.mem_cons.mp hx with rfl | hx
          · exact Or.inl (List.mem_append_right _ (List.mem_singleton.mpr rfl))
          · exact Or.inr hx

theorem mem_headerKeyUnionAux (x : String) :
    ∀ (files : List CsvFile) (acc : List String),
      x ∈ headerKeyUnionAux acc files ↔ x ∈ acc ∨ ∃ f ∈ files, x ∈ f.header.map Prod.fst := by
  intro files
  induction files with
  | nil => intro acc; simp [headerKeyUnionAux]
  | cons f fs ih =>
    intro acc
    unfold headerKeyUnionAux
    rw [ih, mem_insertNewKeys]
    constructor
    · rintro ((hx | hx) | ⟨g, hg, hxg⟩)
      · exact Or.inl hx
      · exact Or.inr ⟨f, List.mem_cons_self _ _, hx⟩
      · exact Or.inr ⟨g, List.mem_cons_of_mem _ hg, hxg⟩
    · rintro (hx | ⟨g, hg, hxg⟩)
      · exact Or.inl (Or.inl hx)
      · rcases List.mem_cons.mp hg with rfl | hg
        · exact Or.inl (Or.inr hxg)
        · exact Or.inr ⟨g, hg, hxg⟩

theorem mem_headerKeyUnion (x : String) (files : List CsvFile) :
    x ∈ headerKeyUnion files ↔ ∃ f ∈ files, x ∈ f.header.map Prod.fst := by
  unfold headerKeyUnion
  rw [mem_headerKeyUnionAux]
  simp

/-- Claim C8: the header extractor succeeds on any nonempty file sequence,
produces exactly one record per input file carrying that file (its path
in the `File` column), gives every record the same column set — the
stripped union of all raw header keys — in which each file's own header
values appear under the stripped key (and an undeclared key looks up to
`none`); the union covers every key of every file, and the strip removes
the `# ` comment prefix. -/
theorem header_extractor_shape (files : List CsvFile) (hne : files ≠ []) :
    ∃ h, get_scada_headers files = .ok h
      ∧ h.records.length = files.length
      ∧ h.records = files.map (mkHeaderRecord (headerKeyUnion files))
      ∧ (∀ f ∈ files, (mkHeaderRecord (headerKeyUnion files) f).file = f
          ∧ (mkHeaderRecord (headerKeyUnion files) f).fields.map Prod.fst
              = (headerKeyUnion files).map stripHash
          ∧ ∀ k ∈ headerKeyUnion files,
              (stripHash k, lookupPairs k f.header)
                ∈ (mkHeaderRecord (headerKeyUnion files) f).fields)
      ∧ (∀ f ∈ files, ∀ k ∈ f.header.map Prod.fst, k ∈ headerKeyUnion files)
      ∧ (∀ s : String, stripHash ("# " ++ s) = stripHash s) := by
  refine ⟨⟨files.map (mkHeaderRecord (headerKeyUnion files))⟩,
    (get_scada_headers_ok_iff files _).mpr ⟨hne, rfl⟩,
    by simp, rfl, ?_, ?_, ?_⟩
  · intro f _
    refine ⟨rfl, ?_, ?_⟩
    · unfold mkHeaderRecord
      simp [List.map_map]
    · intro k hk
      unfold mkHeaderRecord
      exact List.mem_map_of_mem _ hk
  · intro f hf k hk
    exact (mem_headerKeyUnion k files).mpr ⟨f, hf, hk⟩
  · intro s
    rfl

/-- Witness header files for C8: two files with differing header key
sets. -/
def wHeadFileA : CsvFile :=
  ⟨"Turbine_Data_A.csv", [("# Turbine", "T1"), ("# Serial number", "5")], []⟩

/-- Second witness header file, declaring a key the first lacks. -/
def wHeadFileB : CsvFile :=
  ⟨"Turbine_Data_B.csv", [("# Turbine", "T2"), ("# Approved", "yes")], []⟩

/-- Witness for C8 at a concrete two-file input with differing key sets. -/
theorem header_extractor_shape_witness :
    ∃ h, get_scada_headers [wHeadFileA, wHeadFileB] = .ok h
      ∧ h.records.length = [wHeadFileA, wHeadFileB].length
      ∧ h.records = [wHeadFileA, wHeadFileB].map (mkHeaderRecord (headerKeyUnion [wHeadFileA, wHeadFileB]))
      ∧ (∀ f ∈ [wHeadFileA, wHeadFileB], (mkHeaderRecord (headerKeyUnion [wHeadFileA, wHeadFileB]) f).file = f
          ∧ (mkHeaderRecord (headerKeyUnion [wHeadFileA, wHeadFileB]) f).fields.map Prod.fst
              = (headerKeyUnion [wHeadFileA, wHeadFileB]).map stripHash
          ∧ ∀ k ∈ headerKeyUnion [wHeadFileA, wHeadFileB],
              (stripHash k, lookupPairs k f.header)
                ∈ (mkHeaderRecord (headerKeyUnion [wHeadFileA, wHeadFileB]) f).fields)
      ∧ (∀ f ∈ [wHeadFileA, wHeadFileB], ∀ k ∈ f.header.map Prod.fst,
          k ∈ headerKeyUnion [wHeadFileA, wHeadFileB])
      ∧ (∀ s : String, stripHash ("# " ++ s) = stripHash s) :=
  header_extractor_shape [wHeadFileA, wHeadFileB] (by decide)

/-- Claim C5: requesting the year-filtered variant when no SCADA file
matches the year pattern makes the pipeline's SCADA stage fail with the
discovery error raised by concatenating zero header frames — it does not
return an empty table. -/
theorem year_filter_zero_files_error (fs : List CsvFile) (y : Nat)
    (hzero : discoverScadaFiles fs (some y) = []) :
    scadaStage fs (some y) = .error "No objects to concatenate" := by
  unfold scadaStage
  rw [hzero]
  rfl

/-- A non-SCADA file for the C5 witness file system. -/
def wMeter1 : CsvFile :=
  ⟨"Device_28_PMU_1.csv", [], [⟨"t0", [("GMS Energy Export (kWh)", "7")]⟩]⟩

/-- A second meter file to exercise the first-match rule. -/
def wMeter2 : CsvFile :=
  ⟨"Device_29_PMU_2.csv", [], []⟩

/-- Witness for C5: a file system holding only a meter file has no match
for year 2020, and the stage errors. -/
theorem year_filter_zero_files_error_witness :
    scadaStage [wMeter1] (some 2020) = .error "No objects to concatenate" :=
  year_filter_zero_files_error [wMeter1] 2020 rfl

/-- Claim C6: the meter loader uses exactly the first `Device*PMU*.csv`
match in enumeration order even when several files match, and raises a
fatal error (Python's `IndexError`) when no file matches — it never
returns a placeholder table. -/
theorem meter_loader_first_match (fs : List CsvFile) :
    (fs.filter (fun f => globMatchStr "Device*PMU*.csv" f.path) = [] →
      get_meter_data fs = .error "list index out of range")
    ∧ (∀ f rest, fs.filter (fun f => globMatchStr "Device*PMU*.csv" f.path) = f :: rest →
      get_meter_data fs = .ok (readMeterFile f)) := by
  constructor
  · intro hz
    unfold get_meter_data
    rw [hz]
  · intro f rest hf
    unfold get_meter_data
    rw [hf]

/-- Witness for C6: with two matching meter files the loader reads exactly
the first one. -/
theorem meter_loader_first_match_witness :
    get_meter_data [wMeter1, wMeter2] = .ok (readMeterFile wMeter1) :=
  (meter_loader_first_match [wMeter1, wMeter2]).2 wMeter1 [wMeter2] rfl

/-- The MERRA2 file of the C4 failing input. -/
def wMerra2 : CsvFile := ⟨"Kelmarsh_merra2.csv", [], []⟩

/-- The ERA5 file of the C4 failing input. -/
def wEra5 : CsvFile := ⟨"Kelmarsh_era5.csv", [], []⟩

/-- The MERRA2 monthly 10m file of the C4 failing input. -/
def wMerra2Monthly : CsvFile :=
  ⟨"merra2_monthly_10m/Kelmarsh_merra2_monthly_10m.csv", [], []⟩

/-- Claim C4, evaluated at the failing input: all three optional reanalysis
files exist, the monthly file is found on disk, yet the returned
collection holds only the `merra2` and `era5` keys — the monthly product
is read but never added. -/
theorem reanalysis_monthly_never_included :
    reanalysisStage [wMerra2, wEra5, wMerra2Monthly] "Kelmarsh"
      = [("merra2", wMerra2), ("era5", wEra5)]
    ∧ findFile [wMerra2, wEra5, wMerra2Monthly]
        ("merra2_monthly_10m/" ++ "Kelmarsh" ++ "_merra2_monthly_10m.csv") = some wMerra2Monthly :=
  ⟨rfl, rfl⟩

/-- Claim C10: the `plantdata` output shape always packages an empty
reanalysis mapping, whatever the discovered reanalysis dict holds; only
the `dataframes` shape exposes the discovered dict. -/
theorem plantdata_empty_reanalysis (scada meter curtail : List ScadaRow)
    (asset : AssetTable) (d : List (String × CsvFile)) (mp : String) :
    returnedReanalysis (packageReturn .plantdata scada meter curtail asset d mp) = []
    ∧ returnedReanalysis (packageReturn .dataframes scada meter curtail asset d mp) = d :=
  ⟨rfl, rfl⟩

/-- Claim C3: in the synthesized metadata document, `capacity` is the
rated-power sum divided by 1000, `latitude` and `longitude` are the
column means, the document depends on the asset table only through those
three aggregates, and every other key holds the same value as for any
other table (a fixed constant). -/
theorem metadata_aggregates (a : AssetTable) :
    lookupPairs "capacity" (buildAssetJson a) = some (.numStr (sumRatedPower a / 1000))
    ∧ lookupPairs "latitude" (buildAssetJson a) = some (.numStr (meanLatitude a))
    ∧ lookupPairs "longitude" (buildAssetJson a) = some (.numStr (meanLongitude a))
    ∧ (∀ b : AssetTable, meanLatitude a = meanLatitude b → meanLongitude a = meanLongitude b →
        sumRatedPower a = sumRatedPower b → buildAssetJson a = buildAssetJson b)
    ∧ (∀ k, k ≠ "capacity" → k ≠ "latitude" → k ≠ "longitude" →
        lookupPairs k (buildAssetJson a) = lookupPairs k (buildAssetJson [])) := by
  refine ⟨rfl, rfl, rfl, ?_, ?_⟩
  · intro b h1 h2 h3
    unfold buildAssetJson
    rw [h1, h2, h3]
  · intro k hk1 hk2 hk3
    simp only [buildAssetJson, lookupPairs]
    split_ifs <;> simp_all

/-- Witness for C3 at a one-row asset table, reading off the constancy of
the `meter` section. -/
theorem metadata_aggregates_witness :
    lookupPairs "meter" (buildAssetJson [⟨1, 2, 3⟩])
      = lookupPairs "meter" (buildAssetJson []) :=
  (metadata_aggregates [⟨1, 2, 3⟩]).2.2.2.2 "meter" (by decide) (by decide) (by decide)

end Kelmarsh

namespace Kelmarsh

theorem insertByKey_perm {α : Type} (p : String × α) (l : List (String × α)) :
    (insertByKey p l).Perm (p :: l) := by
  induction l with
  | nil => exact List.Perm.refl _
  | cons q rest ih =>
    unfold insertByKey
    split
    · exact List.Perm.refl _
    · exact (List.Perm.cons q ih).trans (List.Perm.swap p q rest)

theorem sortPairs_perm {α : Type} (l : List (String × α)) :
    (sortPairs l).Perm l := by
  induction l with
  | nil => exact List.Perm.refl _
  | cons p rest ih =>
    unfold sortPairs
    exact (insertByKey_perm p _).trans (List.Perm.cons p ih)

theorem lookupPairs_perm {α : Type} (l l' : List (String × α)) (hp : l.Perm l') :
    (l.map Prod.fst).Nodup → ∀ k, lookupPairs k l = lookupPairs k l' := by
  induction hp with
  | nil => intro _ k; rfl
  | cons p hp ih =>
    intro hnd k
    obtain ⟨kp, vp⟩ := p
    by_cases hk : kp = k
    · simp [lookupPairs, hk]
    · simp only [lookupPairs, if_neg hk]
      simp only [List.map_cons, List.nodup_cons] at hnd
      exact ih hnd.2 k
  | swap x y l =>
    intro hnd k
    obtain ⟨ky, vy⟩ := y
    obtain ⟨kx, vx⟩ := x
    have hyx : ky ≠ kx := by
      have h' : (ky :: kx :: l.map Prod.fst).Nodup := by simpa using hnd
      have h'' := (List.nodup_cons.mp h').1
      intro hc
      exact h'' (by rw [hc]; exact List.mem_cons_self _ _)
    by_cases h1 : ky = k <;> by_cases h2 : kx = k
    · exact absurd (h1.trans h2.symm) hyx
    · simp [lookupPairs, h1, h2]
    · simp [lookupPairs, h1, h2]
    · simp [lookupPairs, h1, h2]
  | trans h1 h2 ih1 ih2 =>
    intro hnd k
    have hnd2 := ((h1.map Prod.fst).nodup_iff).mp hnd
    exact (ih1 hnd k).trans (ih2 hnd2 k)

theorem lookupPairs_map_values {α β : Type} (g : α → β) (k : String) :
    ∀ l : List (String × α),
      lookupPairs k (l.map (fun p => (p.1, g p.2))) = (lookupPairs k l).map g := by
  intro l
  induction l with
  | nil => rfl
  | cons p rest ih =>
    obtain ⟨kp, vp⟩ := p
    by_cases hk : kp = k
    · simp [lookupPairs, hk]
    · simpa [lookupPairs, hk] using ih

theorem lookupPairs_some_mem {α : Type} (k : String) (v : α) :
    ∀ l : List (String × α), lookupPairs k l = some v → (k, v) ∈ l := by
  intro l
  induction l with
  | nil => intro hc; cases hc
  | cons p rest ih =>
    obtain ⟨kp, vp⟩ := p
    intro hl
    by_cases hk : kp = k
    · subst hk
      have hl' : some vp = some v := by simpa [lookupPairs] using hl
      rcases Option.some.inj hl' with rfl
      exact List.mem_cons_self _ _
    · simp only [lookupPairs, if_neg hk] at hl
      exact List.mem_cons_of_mem _ (ih hl)

theorem valEquiv_refl : ∀ v, valEquiv v v
  | .s _ => rfl
  | .numStr _ => rfl
  | .m _ => fun _ => rfl

/-- Key-nodup condition for the entries of a mapping value. -/
def innerNodupKeys : MetaVal → Prop
  | .m e => (e.map Prod.fst).Nodup
  | _ => True

theorem buildAssetJson_inner_nodup (a : AssetTable) :
    ∀ p ∈ buildAssetJson a, innerNodupKeys p.2 := by
  intro p hp
  simp only [buildAssetJson, List.mem_cons, List.not_mem_nil, or_false] at hp
  rcases hp with rfl | rfl | rfl | rfl | rfl | rfl | rfl | rfl
  · show ([("elevation", "Elevation (m)"), ("hub_height", "Hub Height (m)"), ("asset_id", "Title"),
      ("latitude", "Latitude"), ("longitude", "Longitude"), ("rated_power", "Rated power (kW)"),
      ("rotor_diameter", "Rotor Diameter (m)")].map Prod.fst).Nodup
    decide
  · show ([("IAVL_DnWh", "Lost Production to Downtime (kWh)"),
      ("IAVL_ExtPwrDnWh", "Lost Production to Curtailment (Total) (kWh)"),
      ("frequency", "10min"), ("time", "Timestamp")].map Prod.fst).Nodup
    decide
  · trivial
  · trivial
  · trivial
  · show ([("MMTR_SupWh", "GMS Energy Export (kWh)"), ("time", "Timestamp")].map Prod.fst).Nodup
    decide
  · show (([] : List (String × String)).map Prod.fst).Nodup
    decide
  · show ([("WMET_EnvTmp", "Nacelle ambient temperature (°C)"), ("WMET_HorWdDir", "Wind direction (°)"),
      ("WMET_HorWdSpd", "Wind speed (m/s)"), ("WROT_BlPthAngVal", "Blade angle (pitch position) A (°)"),
      ("asset_id", "Turbine"), ("WTUR_W", "Power (kW)"), ("frequency", "10min"),
      ("time", "Timestamp")].map Prod.fst).Nodup
    decide

theorem docEquiv_sortDoc (d : List (String × MetaVal))
    (hnd : (d.map Prod.fst).Nodup)
    (hinner : ∀ p ∈ d, innerNodupKeys p.2) :
    docEquiv d (sortDoc d) := by
  intro k
  have hndm : ((d.map (fun p => (p.1, sortVal p.2))).map Prod.fst).Nodup := by
    simpa [List.map_map, Function.comp] using hnd
  have h1 : lookupPairs k (sortDoc d) = (lookupPairs k d).map sortVal := by
    unfold sortDoc
    rw [← lookupPairs_map_values sortVal k d]
    exact (lookupPairs_perm _ _ (sortPairs_perm _).symm hndm k).symm
  rw [h1]
  cases hv : lookupPairs k d with
  | none => exact trivial
  | some v =>
    have hmem := lookupPairs_some_mem k v d hv
    have hin := hinner (k, v) hmem
    cases v with
    | s x => exact rfl
    | numStr q => exact rfl
    | m e =>
      intro k'
      exact lookupPairs_perm e (sortPairs e) (sortPairs_perm e).symm hin k'

/-- Claim C9: a successful run writes exactly the two metadata artifacts
`plant_meta.json` (with 2-space indentation) and `plant_meta.yml`, both
encoding the same `asset_json` document, and the two serialisations
deserialise to equivalent field-mapping documents. -/
theorem metadata_two_artifacts_roundtrip (a : AssetTable) :
    (writeMetaFiles a).map Prod.fst = ["plant_meta.json", "plant_meta.yml"]
    ∧ (writeMetaFiles a).length = 2
    ∧ jsonDump (buildAssetJson a) = .json (buildAssetJson a) 2
    ∧ docEquiv (deserialize (jsonDump (buildAssetJson a)))
        (deserialize (yamlDump (buildAssetJson a))) := by
  refine ⟨rfl, rfl, rfl, ?_⟩
  show docEquiv (buildAssetJson a) (sortDoc (buildAssetJson a))
  apply docEquiv_sortDoc
  · have hkeys : (buildAssetJson a).map Prod.fst
        = ["asset", "curtail", "latitude", "longitude", "capacity", "meter", "reanalysis", "scada"] := rfl
    rw [hkeys]
    decide
  · exact buildAssetJson_inner_nodup a

end Kelmarsh

namespace Kelmarsh

/-- Witness for C9 at the empty asset table. -/
theorem metadata_two_artifacts_roundtrip_witness :
    (writeMetaFiles []).map Prod.fst = ["plant_meta.json", "plant_meta.yml"]
    ∧ (writeMetaFiles []).length = 2
    ∧ jsonDump (buildAssetJson []) = .json (buildAssetJson []) 2
    ∧ docEquiv (deserialize (jsonDump (buildAssetJson [])))
        (deserialize (yamlDump (buildAssetJson []))) :=
  metadata_two_artifacts_roundtrip []

/-- Witness for C10 at a concrete discovered reanalysis dict. -/
theorem plantdata_empty_reanalysis_witness :
    returnedReanalysis
      (packageReturn .plantdata [] [] [] [] [("era5", wEra5)] "data/plant_meta.yml") = []
    ∧ returnedReanalysis
      (packageReturn .dataframes [] [] [] [] [("era5", wEra5)] "data/plant_meta.yml")
        = [("era5", wEra5)] :=
  plantdata_empty_reanalysis [] [] [] [] [("era5", wEra5)] "data/plant_meta.yml"

end Kelmarsh
